import Mathlib

/-!
Shallow embedding of the pyth-client-js account decoders (`src/index.ts`).

Byte buffers are `List Nat` (each entry one byte, `0 ≤ b < 256`).
JS `number` results of floating-point arithmetic are modelled as exact
rationals (`ℚ`); IEEE-754 rounding is not modelled.  JS `bigint` values are
modelled as `Int` / `Nat`.  Out-of-range reads of the fixed-width readers
throw in JS; here they return `Except JsError`.
-/

set_option maxRecDepth 8000

namespace Pyth

/-- Error raised by an out-of-range fixed-width read (Node `ERR_OUT_OF_RANGE`);
records the requested offset and the buffer length. -/
inductive JsError where
  | rangeError (offset length : Nat)
deriving DecidableEq, Repr

/-- Little-endian integer value of the `n` bytes of `data` starting at `off`
(bytes beyond the end read as 0; the readers below guard bounds before use). -/
def leBytes (data : List Nat) : Nat → Nat → Nat
  | _, 0 => 0
  | off, n + 1 => data.getD off 0 + 256 * leBytes data (off + 1) n

/-- Two's-complement reinterpretation of an unsigned `bits`-wide value. -/
def toSigned (bits u : Nat) : Int :=
  if u < 2 ^ (bits - 1) then (u : Int) else (u : Int) - 2 ^ bits

/-- Model of JS `Buffer.prototype.slice(a, b)` (`a ≤ b` at every call site):
the bytes from `a` up to `b` exclusive, clamped to the buffer end. -/
def jsSlice (data : List Nat) (a b : Nat) : List Nat :=
  (data.drop a).take (b - a)

/-- Node `Buffer.readUInt32LE(offset)`: unsigned 32-bit little-endian read,
out of range when the four bytes do not fit in the buffer. -/
def readUInt32LE (data : List Nat) (offset : Nat) : Except JsError Nat :=
  if offset + 4 ≤ data.length then .ok (leBytes data offset 4)
  else .error (.rangeError offset data.length)

/-- Node `Buffer.readInt32LE(offset)`: signed 32-bit little-endian read. -/
def readInt32LE (data : List Nat) (offset : Nat) : Except JsError Int :=
  if offset + 4 ≤ data.length then .ok (toSigned 32 (leBytes data offset 4))
  else .error (.rangeError offset data.length)

/-- Modelled from the spec: `readBigUInt64LE` lives in `./readBig`, a file of
this repository that is not under `src/`.  Spec §4.1: a fixed-width
little-endian unsigned 64-bit read that "fails with an out-of-range condition
if the read would extend past the buffer end". -/
def readBigUInt64LE (data : List Nat) (offset : Nat) : Except JsError Nat :=
  if offset + 8 ≤ data.length then .ok (leBytes data offset 8)
  else .error (.rangeError offset data.length)

/-- Modelled from the spec: `readBigInt64LE` lives in `./readBig`, a file of
this repository that is not under `src/`.  Spec §4.1/§4.3: a signed 64-bit
little-endian read with the same out-of-range behaviour. -/
def readBigInt64LE (data : List Nat) (offset : Nat) : Except JsError Int :=
  if offset + 8 ≤ data.length then .ok (toSigned 64 (leBytes data offset 8))
  else .error (.rangeError offset data.length)

/-- Source constant `export const Magic = 0xa1b2c3d4`. -/
def Magic : Nat := 0xa1b2c3d4

/-- Source constant `export const Version1 = 1`. -/
def Version1 : Nat := 1

/-- Source constant `export const Version = Version1`. -/
def Version : Nat := Version1

/-- Source constant `export const PriceStatus = ['Unknown', 'Trading', 'Halted', 'Auction']`. -/
def PriceStatus : List String := ["Unknown", "Trading", "Halted", "Auction"]

/-- Source constant `export const CorpAction = ['NoCorpAct']`. -/
def CorpAction : List String := ["NoCorpAct"]

/-- Source constant `export const PriceType = ['Unknown', 'Price', 'TWAP', 'Volatility']`. -/
def PriceType : List String := ["Unknown", "Price", "TWAP", "Volatility"]

/-- Model of `@solana/web3.js` `PublicKey` built from a byte buffer: an opaque
wrapper around the bytes handed to the constructor (the constructor performs
no validation of buffers of at most 32 bytes). -/
structure PublicKey where
  bytes : List Nat
deriving DecidableEq, Repr

/-- Source constant `const empty32Buffer = Buffer.alloc(32)`. -/
def empty32Buffer : List Nat := List.replicate 32 0

/-- Source function `const PKorNull = (data) => (data.equals(empty32Buffer) ? null : new PublicKey(data))`;
`Buffer.equals` is byte-wise equality (lengths included). -/
def PKorNull (data : List Nat) : Option PublicKey :=
  if data = empty32Buffer then none else some ⟨data⟩

/-- Source type `interface Base`: the header common to the three account records. -/
structure Base where
  magic : Nat
  version : Nat
  type : Nat
  size : Nat
deriving DecidableEq, Repr

/-- Source type `interface MappingData extends Base`. -/
structure MappingData extends Base where
  nextMappingAccount : Option PublicKey
  productAccountKeys : List PublicKey
deriving DecidableEq, Repr

/-- Source type `interface ProductData extends Base`; the `product` metadata object is
modelled as an insertion-ordered association list from key bytes to value
bytes (JS-string decoding of the bytes is not modelled). -/
structure ProductData extends Base where
  priceAccountKey : PublicKey
  product : List (List Nat × List Nat)
deriving DecidableEq, Repr

/-- Source type `interface Price`: one decoded 32-byte price-info block.  The scaled
`price` and `confidence` doubles are modelled as exact rationals. -/
structure Price where
  priceComponent : Int
  price : ℚ
  confidenceComponent : Nat
  confidence : ℚ
  status : Nat
  corporateAction : Nat
  publishSlot : Nat
deriving DecidableEq, Repr

/-- Source type `interface PriceComponent`; components are only ever pushed with a
non-null publisher, so the publisher is stored directly. -/
structure PriceComponent where
  publisher : PublicKey
  aggregate : Price
  latest : Price
deriving DecidableEq, Repr

/-- Source type `interface PriceData extends Base, Price` (the aggregate price-info
fields are spread into the record). -/
structure PriceData extends Base, Price where
  priceType : Nat
  exponent : Int
  numComponentPrices : Nat
  currentSlot : Nat
  validSlot : Nat
  productAccountKey : PublicKey
  nextPriceAccountKey : Option PublicKey
  aggregatePriceUpdaterAccountKey : PublicKey
  priceComponents : List PriceComponent
deriving DecidableEq, Repr

/-- The `for (let i = 0; i < numProducts; i++)` loop of `parseMappingData`:
`n` remaining iterations, reading 32 bytes at `offset` each time. -/
def mappingKeysLoop (data : List Nat) : Nat → Nat → List PublicKey
  | 0, _ => []
  | n + 1, offset => ⟨jsSlice data offset (offset + 32)⟩ :: mappingKeysLoop data n (offset + 32)

/-- Source constant `export const parseMappingData = (data) => ...`. -/
def parseMappingData (data : List Nat) : Except JsError MappingData := do
  let magic ← readUInt32LE data 0
  let version ← readUInt32LE data 4
  let type ← readUInt32LE data 8
  let size ← readUInt32LE data 12
  let numProducts ← readUInt32LE data 16
  let nextMappingAccount := PKorNull (jsSlice data 24 56)
  let productAccountKeys := mappingKeysLoop data numProducts 56
  return { magic := magic, version := version, type := type, size := size,
           nextMappingAccount := nextMappingAccount,
           productAccountKeys := productAccountKeys }

/-- Model of `product[key] = value` on a JS object held as an
insertion-ordered association list: an existing key keeps its position and
has its value overwritten, a new key is appended. -/
def setKV : List (List Nat × List Nat) → List Nat → List Nat → List (List Nat × List Nat)
  | [], k, v => [(k, v)]
  | (k', v') :: rest, k, v =>
      if k' = k then (k, v) :: rest else (k', v') :: setKV rest k v

/-- Lookup in the association list modelling the JS metadata object. -/
def getKV : List (List Nat × List Nat) → List Nat → Option (List Nat)
  | [], _ => none
  | (k', v') :: rest, k => if k' = k then some v' else getKV rest k

/-- The `while (idx < size)` metadata loop of `parseProductData`.
`data[idx]` past the buffer end is JS `undefined`, which is falsy exactly
like the byte 0, hence the `none` arm.  When the value-length byte
`data[idx]` is `undefined`, JS computes `value = data.slice(idx, idx + undefined)`
(an empty slice), stores the pair, and sets `idx += undefined`, i.e. `NaN`,
which ends the loop at once. -/
def parseProductLoop (data : List Nat) (size : Nat) (idx : Nat)
    (product : List (List Nat × List Nat)) : List (List Nat × List Nat) :=
  if h : idx < size then
    match data[idx]? with
    | none => parseProductLoop data size (idx + 1) product
    | some 0 => parseProductLoop data size (idx + 1) product
    | some (k + 1) =>
        let keyLength := k + 1
        let key := jsSlice data (idx + 1) (idx + 1 + keyLength)
        match data[idx + 1 + keyLength]? with
        | none => setKV product key []
        | some valueLength =>
            parseProductLoop data size (idx + 1 + keyLength + 1 + valueLength)
              (setKV product key
                (jsSlice data (idx + 1 + keyLength + 1) (idx + 1 + keyLength + 1 + valueLength)))
  else product
termination_by size - idx
decreasing_by all_goals omega

/-- Source constant `export const parseProductData = (data) => ...`. -/
def parseProductData (data : List Nat) : Except JsError ProductData := do
  let magic ← readUInt32LE data 0
  let version ← readUInt32LE data 4
  let type ← readUInt32LE data 8
  let size ← readUInt32LE data 12
  let priceAccountKey : PublicKey := ⟨jsSlice data 16 48⟩
  let product := parseProductLoop data size 48 []
  return { magic := magic, version := version, type := type, size := size,
           priceAccountKey := priceAccountKey, product := product }

/-- Source function `const parsePriceInfo = (data, exponent) => ...`: decode one 32-byte
price-info block; `data` is the 32-byte slice handed in by `parsePriceData`.
`Number(mantissa) * 10 ** exponent` is modelled as exact rational
multiplication by `10 ^ exponent`. -/
def parsePriceInfo (data : List Nat) (exponent : Int) : Except JsError Price := do
  let priceComponent ← readBigInt64LE data 0
  let price : ℚ := (priceComponent : ℚ) * 10 ^ exponent
  let confidenceComponent ← readBigUInt64LE data 8
  let confidence : ℚ := (confidenceComponent : ℚ) * 10 ^ exponent
  let status ← readUInt32LE data 16
  let corporateAction ← readUInt32LE data 20
  let publishSlot ← readBigUInt64LE data 24
  return { priceComponent := priceComponent, price := price,
           confidenceComponent := confidenceComponent, confidence := confidence,
           status := status, corporateAction := corporateAction,
           publishSlot := publishSlot }

/-- The `while (offset < data.length && shouldContinue)` component loop of
`parsePriceData`: a present publisher consumes 96 bytes (publisher,
aggregate price-info, latest price-info); a null publisher (32 zero bytes)
stops the loop. -/
def priceCompLoop (data : List Nat) (exponent : Int) (offset : Nat) :
    Except JsError (List PriceComponent) :=
  if h : offset < data.length then
    match PKorNull (jsSlice data offset (offset + 32)) with
    | none => .ok []
    | some publisher => do
        let aggregate ← parsePriceInfo (jsSlice data (offset + 32) (offset + 64)) exponent
        let latest ← parsePriceInfo (jsSlice data (offset + 64) (offset + 96)) exponent
        let rest ← priceCompLoop data exponent (offset + 96)
        return { publisher := publisher, aggregate := aggregate, latest := latest } :: rest
  else .ok []
termination_by data.length - offset
decreasing_by omega

/-- Source constant `export const parsePriceData = (data) => ...`. -/
def parsePriceData (data : List Nat) : Except JsError PriceData := do
  let magic ← readUInt32LE data 0
  let version ← readUInt32LE data 4
  let type ← readUInt32LE data 8
  let size ← readUInt32LE data 12
  let priceType ← readUInt32LE data 16
  let exponent ← readInt32LE data 20
  let numComponentPrices ← readUInt32LE data 24
  let currentSlot ← readBigUInt64LE data 32
  let validSlot ← readBigUInt64LE data 40
  let productAccountKey : PublicKey := ⟨jsSlice data 48 80⟩
  let nextPriceAccountKey := PKorNull (jsSlice data 80 112)
  let aggregatePriceUpdaterAccountKey : PublicKey := ⟨jsSlice data 112 144⟩
  let aggregatePriceInfo ← parsePriceInfo (jsSlice data 144 176) exponent
  let priceComponents ← priceCompLoop data exponent 176
  return { magic := magic, version := version, type := type, size := size,
           priceType := priceType, exponent := exponent,
           numComponentPrices := numComponentPrices,
           currentSlot := currentSlot, validSlot := validSlot,
           productAccountKey := productAccountKey,
           nextPriceAccountKey := nextPriceAccountKey,
           aggregatePriceUpdaterAccountKey := aggregatePriceUpdaterAccountKey,
           toPrice := aggregatePriceInfo,
           priceComponents := priceComponents }

/-- Unsigned 32-bit little-endian value at `off` (pure form of `readUInt32LE`). -/
def u32 (data : List Nat) (off : Nat) : Nat := leBytes data off 4

/-- Signed 32-bit little-endian value at `off` (pure form of `readInt32LE`). -/
def i32 (data : List Nat) (off : Nat) : Int := toSigned 32 (leBytes data off 4)

/-- Unsigned 64-bit little-endian value at `off` (pure form of `readBigUInt64LE`). -/
def u64 (data : List Nat) (off : Nat) : Nat := leBytes data off 8

/-- Signed 64-bit little-endian value at `off` (pure form of `readBigInt64LE`). -/
def i64 (data : List Nat) (off : Nat) : Int := toSigned 64 (leBytes data off 8)

/-- Value of a price-info block whose 32 bytes are all in bounds. -/
def priceInfoVal (b : List Nat) (e : Int) : Price :=
  { priceComponent := i64 b 0, price := (i64 b 0 : ℚ) * 10 ^ e,
    confidenceComponent := u64 b 8, confidence := (u64 b 8 : ℚ) * 10 ^ e,
    status := u32 b 16, corporateAction := u32 b 20, publishSlot := u64 b 24 }

/-- Fuel-indexed restatement of `parseProductLoop`, used only to evaluate the
well-founded loop on concrete inputs; `parseProductLoop_eq_fuel` proves it
agrees with the loop whenever the fuel covers `size - idx`. -/
def parseProductLoopF (data : List Nat) (size : Nat) :
    Nat → Nat → List (List Nat × List Nat) → List (List Nat × List Nat)
  | 0, _, product => product
  | fuel + 1, idx, product =>
    if idx < size then
      match data[idx]? with
      | none => parseProductLoopF data size fuel (idx + 1) product
      | some 0 => parseProductLoopF data size fuel (idx + 1) product
      | some (k + 1) =>
          match data[idx + 1 + (k + 1)]? with
          | none => setKV product (jsSlice data (idx + 1) (idx + 1 + (k + 1))) []
          | some v =>
              parseProductLoopF data size fuel (idx + 1 + (k + 1) + 1 + v)
                (setKV product (jsSlice data (idx + 1) (idx + 1 + (k + 1)))
                  (jsSlice data (idx + 1 + (k + 1) + 1) (idx + 1 + (k + 1) + 1 + v)))
    else product

/-- Fuel-indexed restatement of `priceCompLoop`, used only to evaluate the
well-founded loop on concrete inputs. -/
def priceCompLoopF (data : List Nat) (exponent : Int) :
    Nat → Nat → Except JsError (List PriceComponent)
  | 0, _ => .ok []
  | fuel + 1, offset =>
    if offset < data.length then
      match PKorNull (jsSlice data offset (offset + 32)) with
      | none => .ok []
      | some publisher => do
          let aggregate ← parsePriceInfo (jsSlice data (offset + 32) (offset + 64)) exponent
          let latest ← parsePriceInfo (jsSlice data (offset + 64) (offset + 96)) exponent
          let rest ← priceCompLoopF data exponent fuel (offset + 96)
          return { publisher := publisher, aggregate := aggregate, latest := latest } :: rest
    else .ok []

/-- Decidable equality on `Except`, used to evaluate parser results on
concrete buffers. -/
instance {ε α : Type} [DecidableEq ε] [DecidableEq α] : DecidableEq (Except ε α)
  | .error a, .error b =>
      if h : a = b then .isTrue (by rw [h])
      else .isFalse (fun hh => h (Except.error.inj hh))
  | .error _, .ok _ => .isFalse (fun hh => Except.noConfusion hh)
  | .ok _, .error _ => .isFalse (fun hh => Except.noConfusion hh)
  | .ok a, .ok b =>
      if h : a = b then .isTrue (by rw [h])
      else .isFalse (fun hh => h (Except.ok.inj hh))

/-- The record returned by `parsePriceData` on a buffer holding at least the
176 fixed bytes, as a function of the decoded component list. -/
def priceDataVal (data : List Nat) (comps : List PriceComponent) : PriceData :=
  { magic := u32 data 0, version := u32 data 4, type := u32 data 8,
    size := u32 data 12, priceType := u32 data 16, exponent := i32 data 20,
    numComponentPrices := u32 data 24, currentSlot := u64 data 32,
    validSlot := u64 data 40, productAccountKey := ⟨jsSlice data 48 80⟩,
    nextPriceAccountKey := PKorNull (jsSlice data 80 112),
    aggregatePriceUpdaterAccountKey := ⟨jsSlice data 112 144⟩,
    toPrice := priceInfoVal (jsSlice data 144 176) (i32 data 20),
    priceComponents := comps }

/-- Modelled from the spec's words (§4.6, testable property list): the
decoded component list "contains exactly the consecutive 96-byte triples
starting at offset 176 up to but not including the first component whose
32-byte publisher span is all zero", a complete triple being present only
while 96 bytes remain. -/
def componentsSpec (data : List Nat) (exponent : Int) (offset : Nat) :
    List PriceComponent :=
  if h : offset + 96 ≤ data.length ∧ jsSlice data offset (offset + 32) ≠ empty32Buffer then
    { publisher := ⟨jsSlice data offset (offset + 32)⟩,
      aggregate := priceInfoVal (jsSlice data (offset + 32) (offset + 64)) exponent,
      latest := priceInfoVal (jsSlice data (offset + 64) (offset + 96)) exponent } ::
      componentsSpec data exponent (offset + 96)
  else []
termination_by data.length - offset
decreasing_by omega

/-- A 56-byte mapping buffer declaring one product; the identifier region that
should hold the product key lies wholly past the end of the buffer. -/
def mapShortBuf : List Nat := List.replicate 16 0 ++ [1, 0, 0, 0] ++ List.replicate 36 0

/-- A 20-byte mapping buffer whose magic field is `0x04030201`, not the Pyth
magic. -/
def mapBadMagicBuf : List Nat := [1, 2, 3, 4] ++ List.replicate 16 0

/-- A 20-byte mapping buffer declaring two products (none of whose bytes are
present in the buffer). -/
def mapTwoBuf : List Nat := List.replicate 16 0 ++ [2, 0, 0, 0]

/-- A 32-byte span with one non-zero byte. -/
def pkNonzeroBuf : List Nat := 1 :: List.replicate 31 0

/-- A 180-byte price buffer: the 176 fixed bytes, then a 4-byte non-zero
partial component tail. -/
def priceBadTailBuf : List Nat := List.replicate 176 0 ++ [1, 1, 1, 1]

/-- A 208-byte price buffer with declared component count 16 at offset 24 and
an all-zero 32-byte publisher sentinel at offset 176. -/
def priceZeroCompBuf : List Nat :=
  List.replicate 24 0 ++ [16, 0, 0, 0] ++ List.replicate 180 0

/-- A 60-byte product buffer with used-size 52: the key-length byte 10 at
offset 48 makes the key span offsets 49–58, crossing the declared used-size;
the marker bytes 65..71 sit at offsets 52–58, at and past the used-size. -/
def prodOverrunBuf : List Nat :=
  List.replicate 12 0 ++ [52, 0, 0, 0] ++ List.replicate 32 0 ++ [10] ++
    [0, 0, 0] ++ [65, 66, 67, 68, 69, 70, 71] ++ [0]

/-- A 16-byte product buffer whose declared used-size 200 far exceeds the
physical length. -/
def prodOversizeBuf : List Nat := List.replicate 12 0 ++ [200, 0, 0, 0]

/-- A 32-byte price-info block whose status ordinal is 7, outside the 4-entry
status table. -/
def infoStatus7Buf : List Nat :=
  List.replicate 16 0 ++ [7, 0, 0, 0] ++ List.replicate 12 0

/-- A 32-byte price-info block whose price mantissa is 123456 (signed 64-bit
little-endian). -/
def infoMantissaBuf : List Nat :=
  [0x40, 0xE2, 0x01, 0, 0, 0, 0, 0] ++ List.replicate 24 0

lemma jsSlice_length (data : List Nat) (a b : Nat) :
    (jsSlice data a b).length = min (b - a) (data.length - a) := by
  simp [jsSlice]

lemma parsePriceInfo_ok (b : List Nat) (e : Int) (h : 32 ≤ b.length) :
    parsePriceInfo b e = .ok (priceInfoVal b e) := by
  simp only [parsePriceInfo, readBigInt64LE, readBigUInt64LE, readUInt32LE,
    if_pos (by omega : 0 + 8 ≤ b.length), if_pos (by omega : 8 + 8 ≤ b.length),
    if_pos (by omega : 16 + 4 ≤ b.length), if_pos (by omega : 20 + 4 ≤ b.length),
    if_pos (by omega : 24 + 8 ≤ b.length)]
  rfl

lemma parsePriceInfo_ok_inv (b : List Nat) (e : Int) (p : Price)
    (h : parsePriceInfo b e = .ok p) : 32 ≤ b.length ∧ p = priceInfoVal b e := by
  by_cases hl : 32 ≤ b.length
  · rw [parsePriceInfo_ok b e hl] at h
    exact ⟨hl, (Except.ok.inj h).symm⟩
  · exfalso
    simp only [parsePriceInfo, readBigInt64LE, readBigUInt64LE, readUInt32LE] at h
    by_cases h1 : 0 + 8 ≤ b.length
    · rw [if_pos h1] at h
      by_cases h2 : 8 + 8 ≤ b.length
      · rw [if_pos h2] at h
        by_cases h3 : 16 + 4 ≤ b.length
        · rw [if_pos h3] at h
          by_cases h4 : 20 + 4 ≤ b.length
          · rw [if_pos h4] at h
            rw [if_neg (by omega : ¬ 24 + 8 ≤ b.length)] at h
            exact Except.noConfusion h
          · rw [if_neg h4] at h; exact Except.noConfusion h
        · rw [if_neg h3] at h; exact Except.noConfusion h
      · rw [if_neg h2] at h; exact Except.noConfusion h
    · rw [if_neg h1] at h; exact Except.noConfusion h

lemma parseProductLoop_exit (data : List Nat) (size idx : Nat)
    (p : List (List Nat × List Nat)) (h : ¬ idx < size) :
    parseProductLoop data size idx p = p := by
  rw [parseProductLoop]
  exact dif_neg h

lemma parseProductLoop_eq_fuel (data : List Nat) (size : Nat) :
    ∀ fuel idx p, size - idx ≤ fuel →
      parseProductLoop data size idx p = parseProductLoopF data size fuel idx p := by
  intro fuel
  induction fuel with
  | zero =>
      intro idx p h
      exact parseProductLoop_exit data size idx p (by omega)
  | succ n ih =>
      intro idx p h
      rw [parseProductLoop, parseProductLoopF]
      by_cases hi : idx < size
      · rw [dif_pos hi, if_pos hi]
        cases hk : data[idx]? with
        | none => exact ih (idx + 1) p (by omega)
        | some v =>
            cases v with
            | zero => exact ih (idx + 1) p (by omega)
            | succ k =>
                dsimp only
                cases hv : data[idx + 1 + (k + 1)]? with
                | none => rfl
                | some w => exact ih _ _ (by omega)
      · rw [dif_neg hi, if_neg hi]

lemma priceCompLoop_exit (data : List Nat) (exponent : Int) (offset : Nat)
    (h : ¬ offset < data.length) : priceCompLoop data exponent offset = .ok [] := by
  rw [priceCompLoop]
  exact dif_neg h

lemma priceCompLoop_eq_fuel (data : List Nat) (exponent : Int) :
    ∀ fuel offset, data.length - offset ≤ fuel →
      priceCompLoop data exponent offset = priceCompLoopF data exponent fuel offset := by
  intro fuel
  induction fuel with
  | zero =>
      intro offset h
      exact priceCompLoop_exit data exponent offset (by omega)
  | succ n ih =>
      intro offset h
      rw [priceCompLoop, priceCompLoopF]
      by_cases hi : offset < data.length
      · rw [dif_pos hi, if_pos hi]
        cases PKorNull (jsSlice data offset (offset + 32)) with
        | none => rfl
        | some publisher =>
            rw [ih (offset + 96) (by omega)]
      · rw [dif_neg hi, if_neg hi]

/-- Reduction of the monadic glue: binding a successful `Except` value just
applies the continuation. -/
lemma exceptOkBind {ε α β : Type} (a : α) (f : α → Except ε β) :
    (Bind.bind (Except.ok a : Except ε α) f) = f a := rfl

lemma parseMappingData_eq (data : List Nat) (h : 20 ≤ data.length) :
    parseMappingData data =
      .ok { magic := u32 data 0, version := u32 data 4, type := u32 data 8,
            size := u32 data 12,
            nextMappingAccount := PKorNull (jsSlice data 24 56),
            productAccountKeys := mappingKeysLoop data (u32 data 16) 56 } := by
  simp only [parseMappingData, readUInt32LE,
    if_pos (by omega : 0 + 4 ≤ data.length), if_pos (by omega : 4 + 4 ≤ data.length),
    if_pos (by omega : 8 + 4 ≤ data.length), if_pos (by omega : 12 + 4 ≤ data.length),
    if_pos (by omega : 16 + 4 ≤ data.length)]
  rfl

lemma parseProductData_eq (data : List Nat) (h : 16 ≤ data.length) :
    parseProductData data =
      .ok { magic := u32 data 0, version := u32 data 4, type := u32 data 8,
            size := u32 data 12, priceAccountKey := ⟨jsSlice data 16 48⟩,
            product := parseProductLoop data (u32 data 12) 48 [] } := by
  simp only [parseProductData, readUInt32LE,
    if_pos (by omega : 0 + 4 ≤ data.length), if_pos (by omega : 4 + 4 ≤ data.length),
    if_pos (by omega : 8 + 4 ≤ data.length), if_pos (by omega : 12 + 4 ≤ data.length)]
  rfl

lemma parsePriceData_eq (data : List Nat) (h : 176 ≤ data.length) :
    parsePriceData data =
      Except.bind (priceCompLoop data (i32 data 20) 176)
        (fun comps => .ok (priceDataVal data comps)) := by
  have hagg : parsePriceInfo (jsSlice data 144 176) (toSigned 32 (leBytes data 20 4)) =
      .ok (priceInfoVal (jsSlice data 144 176) (toSigned 32 (leBytes data 20 4))) :=
    parsePriceInfo_ok _ _ (by rw [jsSlice_length]; omega)
  simp only [parsePriceData, readUInt32LE, readInt32LE, readBigUInt64LE,
    if_pos (by omega : 0 + 4 ≤ data.length), if_pos (by omega : 4 + 4 ≤ data.length),
    if_pos (by omega : 8 + 4 ≤ data.length), if_pos (by omega : 12 + 4 ≤ data.length),
    if_pos (by omega : 16 + 4 ≤ data.length), if_pos (by omega : 20 + 4 ≤ data.length),
    if_pos (by omega : 24 + 4 ≤ data.length), if_pos (by omega : 32 + 8 ≤ data.length),
    if_pos (by omega : 40 + 8 ≤ data.length)]
  simp only [exceptOkBind]
  rw [hagg]
  simp only [exceptOkBind]
  rfl

lemma PKorNull_none_iff (b : List Nat) : PKorNull b = none ↔ b = empty32Buffer := by
  by_cases h : b = empty32Buffer
  · simp [PKorNull, h]
  · simp [PKorNull, h]

lemma PKorNull_some (b : List Nat) (pk : PublicKey) (h : PKorNull b = some pk) :
    b ≠ empty32Buffer ∧ pk = ⟨b⟩ := by
  by_cases hb : b = empty32Buffer
  · rw [PKorNull, if_pos hb] at h
    exact Option.noConfusion h
  · rw [PKorNull, if_neg hb] at h
    exact ⟨hb, (Option.some.inj h).symm⟩

/-- Reduction of the monadic glue: binding a failed `Except` value
propagates the error. -/
lemma exceptErrorBind {ε α β : Type} (e : ε) (f : α → Except ε β) :
    (Bind.bind (Except.error e : Except ε α) f) = .error e := rfl

lemma parsePriceInfo_err (b : List Nat) (e : Int) (h : b.length < 32) :
    ∃ err, parsePriceInfo b e = .error err := by
  cases hb : parsePriceInfo b e with
  | ok p => exact absurd (parsePriceInfo_ok_inv b e p hb).1 (by omega)
  | error err => exact ⟨err, rfl⟩

/-- Reduction of the monadic glue: `pure` is `Except.ok`. -/
lemma exceptPure {ε α : Type} (a : α) : (Pure.pure a : Except ε α) = .ok a := rfl

set_option maxHeartbeats 1000000 in
lemma parsePriceData_ok_length (data : List Nat) (r : PriceData)
    (h : parsePriceData data = .ok r) : 176 ≤ data.length := by
  by_contra hlen
  push_neg at hlen
  by_cases h48 : 48 ≤ data.length
  · obtain ⟨err, herr⟩ := parsePriceInfo_err (jsSlice data 144 176)
      (toSigned 32 (leBytes data 20 4)) (by rw [jsSlice_length]; omega)
    simp only [parsePriceData, readUInt32LE, readInt32LE, readBigUInt64LE,
      if_pos (by omega : 0 + 4 ≤ data.length), if_pos (by omega : 4 + 4 ≤ data.length),
      if_pos (by omega : 8 + 4 ≤ data.length), if_pos (by omega : 12 + 4 ≤ data.length),
      if_pos (by omega : 16 + 4 ≤ data.length), if_pos (by omega : 20 + 4 ≤ data.length),
      if_pos (by omega : 24 + 4 ≤ data.length), if_pos (by omega : 32 + 8 ≤ data.length),
      if_pos (by omega : 40 + 8 ≤ data.length), exceptOkBind] at h
    rw [herr, exceptErrorBind] at h
    exact Except.noConfusion h
  · simp only [parsePriceData, readUInt32LE, readInt32LE, readBigUInt64LE] at h
    split_ifs at h <;>
      first
        | omega
        | (simp only [exceptOkBind, exceptErrorBind] at h; exact Except.noConfusion h)

lemma priceCompLoop_char (data : List Nat) (e : Int) :
    ∀ off l, priceCompLoop data e off = .ok l → l = componentsSpec data e off := by
  have key : ∀ n off l, data.length - off ≤ n →
      priceCompLoop data e off = .ok l → l = componentsSpec data e off := by
    intro n
    induction n with
    | zero =>
        intro off l hn hl
        rw [priceCompLoop_exit data e off (by omega)] at hl
        rw [componentsSpec, dif_neg (by rintro ⟨h1, _⟩; omega)]
        exact (Except.ok.inj hl).symm
    | succ n ih =>
        intro off l hn hl
        by_cases hoff : off < data.length
        · rw [priceCompLoop, dif_pos hoff] at hl
          cases hpk : PKorNull (jsSlice data off (off + 32)) with
          | none =>
              simp only [hpk] at hl
              rw [componentsSpec,
                dif_neg (by
                  rintro ⟨h1, hne⟩
                  exact hne ((PKorNull_none_iff _).mp hpk))]
              exact (Except.ok.inj hl).symm
          | some pk =>
              obtain ⟨hne, hpkv⟩ := PKorNull_some _ _ hpk
              cases ha : parsePriceInfo (jsSlice data (off + 32) (off + 64)) e with
              | error e1 =>
                  simp only [hpk, ha, exceptErrorBind] at hl
                  exact Except.noConfusion hl
              | ok agg =>
                  obtain ⟨hlen1, haggv⟩ := parsePriceInfo_ok_inv _ _ _ ha
                  rw [jsSlice_length] at hlen1
                  cases hb : parsePriceInfo (jsSlice data (off + 64) (off + 96)) e with
                  | error e2 =>
                      simp only [hpk, ha, hb, exceptOkBind, exceptErrorBind] at hl
                      exact Except.noConfusion hl
                  | ok lat =>
                      obtain ⟨hlen2, hlatv⟩ := parsePriceInfo_ok_inv _ _ _ hb
                      rw [jsSlice_length] at hlen2
                      cases hc : priceCompLoop data e (off + 96) with
                      | error e3 =>
                          simp only [hpk, ha, hb, hc, exceptOkBind, exceptErrorBind] at hl
                          exact Except.noConfusion hl
                      | ok rest =>
                          simp only [hpk, ha, hb, hc, exceptOkBind, exceptPure] at hl
                          have hrest := ih (off + 96) rest (by omega) hc
                          rw [componentsSpec, dif_pos ⟨by omega, hne⟩]
                          rw [← (Except.ok.inj hl), hpkv, haggv, hlatv, hrest]
        · rw [priceCompLoop_exit data e off hoff] at hl
          rw [componentsSpec, dif_neg (by rintro ⟨h1, _⟩; omega)]
          exact (Except.ok.inj hl).symm
  intro off l
  exact key (data.length - off) off l (le_refl _)

lemma mappingKeysLoop_length (data : List Nat) :
    ∀ n off, (mappingKeysLoop data n off).length = n := by
  intro n
  induction n with
  | zero => intro off; rfl
  | succ m ih => intro off; simp [mappingKeysLoop, ih (off + 32)]

lemma mappingKeysLoop_get (data : List Nat) :
    ∀ n off i, i < n →
      (mappingKeysLoop data n off)[i]? =
        some ⟨jsSlice data (off + 32 * i) (off + 32 * i + 32)⟩ := by
  intro n
  induction n with
  | zero => intro off i h; omega
  | succ m ih =>
      intro off i h
      cases i with
      | zero => simp [mappingKeysLoop]
      | succ j =>
          simp only [mappingKeysLoop, List.getElem?_cons_succ]
          rw [ih (off + 32) j (by omega),
            show off + 32 + 32 * j = off + 32 * (j + 1) from by ring]

lemma getKV_setKV_self :
    ∀ (p : List (List Nat × List Nat)) (k v : List Nat),
      getKV (setKV p k v) k = some v := by
  intro p k v
  induction p with
  | nil => simp [setKV, getKV]
  | cons hd tl ih =>
      obtain ⟨a, b⟩ := hd
      by_cases hak : a = k
      · simp [setKV, getKV, hak]
      · simp [setKV, getKV, hak, ih]

lemma getKV_setKV_other :
    ∀ (p : List (List Nat × List Nat)) (k v k2 : List Nat), k2 ≠ k →
      getKV (setKV p k v) k2 = getKV p k2 := by
  intro p k v k2 hne
  induction p with
  | nil => simp [setKV, getKV, Ne.symm hne]
  | cons hd tl ih =>
      obtain ⟨a, b⟩ := hd
      by_cases hak : a = k
      · subst hak
        simp [setKV, getKV, Ne.symm hne]
      · by_cases hak2 : a = k2
        · simp [setKV, getKV, hak, hak2, hne]
        · simp [setKV, getKV, hak, hak2, ih]

/-- C1: for every price-info block wholly contained in its 32-byte slice and
every exponent, the decoded scaled price is the signed 64-bit little-endian
mantissa of bytes 0–7 times `10 ^ exponent`, and the scaled confidence is the
unsigned 64-bit mantissa of bytes 8–15 times `10 ^ exponent` (doubles
modelled as exact rationals). -/
theorem c1_priceInfo_scaling (data : List Nat) (e : Int) (h : 32 ≤ data.length) :
    ∃ p, parsePriceInfo data e = .ok p ∧
      p.priceComponent = toSigned 64 (leBytes data 0 8) ∧
      p.price = (p.priceComponent : ℚ) * 10 ^ e ∧
      p.confidenceComponent = leBytes data 8 8 ∧
      p.confidence = (p.confidenceComponent : ℚ) * 10 ^ e := by
  refine ⟨priceInfoVal data e, parsePriceInfo_ok data e h, ?_, ?_, ?_, ?_⟩ <;>
    dsimp only [priceInfoVal, i64, u64]

/-- C1 witness: mantissa 123456 with exponent −2 decodes to price 1234.56. -/
theorem c1_priceInfo_scaling_witness :
    32 ≤ infoMantissaBuf.length ∧
      ∃ p, parsePriceInfo infoMantissaBuf (-2) = .ok p ∧
        p.priceComponent = 123456 ∧ p.price = (1234.56 : ℚ) := by
  obtain ⟨p, hok, hpc, hpr, _, _⟩ :=
    c1_priceInfo_scaling infoMantissaBuf (-2) (by decide)
  have h1 : toSigned 64 (leBytes infoMantissaBuf 0 8) = 123456 := by decide
  refine ⟨by decide, p, hok, by rw [hpc, h1], ?_⟩
  rw [hpr, hpc, h1]
  norm_num

/-- C2 counterexample: a 180-byte price buffer whose component region is the
4 non-zero bytes `[1,1,1,1]` has no publisher sentinel, so the claim says it
decodes to the component list obtained up to buffer exhaustion (no complete
triple); the code instead aborts the whole decode with a bounds error while
reading the partial component. -/
theorem c2_counterexample :
    parsePriceData priceBadTailBuf = .error (.rangeError 0 0) := by
  rw [parsePriceData_eq priceBadTailBuf (by decide),
    priceCompLoop_eq_fuel priceBadTailBuf (i32 priceBadTailBuf 20) 4 176 (by decide)]
  decide

/-- C2 amended: whenever the price decode succeeds, the component list is
exactly the consecutive complete 96-byte triples from offset 176 up to the
first all-zero 32-byte publisher span (or exact buffer exhaustion); and a
buffer whose 32 bytes at offset 176 are all zero decodes successfully to an
empty component list, regardless of the declared component-count field. -/
theorem c2_components_characterization :
    (∀ (data : List Nat) (r : PriceData), parsePriceData data = .ok r →
        r.priceComponents = componentsSpec data r.exponent 176) ∧
    (∀ data : List Nat, 208 ≤ data.length → jsSlice data 176 208 = empty32Buffer →
        parsePriceData data = .ok (priceDataVal data [])) := by
  constructor
  · intro data r hok
    have hlen := parsePriceData_ok_length data r hok
    rw [parsePriceData_eq data hlen] at hok
    cases hpc : priceCompLoop data (i32 data 20) 176 with
    | error err =>
        rw [hpc] at hok
        exact Except.noConfusion hok
    | ok comps =>
        rw [hpc] at hok
        have hr : priceDataVal data comps = r := Except.ok.inj hok
        have hcs := priceCompLoop_char data (i32 data 20) 176 comps hpc
        rw [← hr]
        show comps = componentsSpec data (i32 data 20) 176
        exact hcs
  · intro data hlen hz
    rw [parsePriceData_eq data (by omega)]
    have hpk : PKorNull (jsSlice data 176 (176 + 32)) = none := by
      rw [PKorNull_none_iff]
      simpa using hz
    have hcomp : priceCompLoop data (i32 data 20) 176 = .ok [] := by
      rw [priceCompLoop, dif_pos (by omega : 176 < data.length)]
      simp only [hpk]
    rw [hcomp]
    rfl

/-- C2 witness: a 208-byte buffer with declared component count 16 and an
all-zero publisher span at offset 176 decodes to an empty component list. -/
theorem c2_components_characterization_witness :
    (208 ≤ priceZeroCompBuf.length ∧ jsSlice priceZeroCompBuf 176 208 = empty32Buffer ∧
        u32 priceZeroCompBuf 24 = 16) ∧
      parsePriceData priceZeroCompBuf = .ok (priceDataVal priceZeroCompBuf []) :=
  ⟨⟨by decide, by decide, by decide⟩,
    c2_components_characterization.2 priceZeroCompBuf (by decide) (by decide)⟩

/-- C3: a metadata step at a key-length byte 0 advances the offset by exactly
one and inserts nothing; a step at key-length `k + 1` with value-length byte
`v` advances by `1 + (k + 1) + 1 + v` and performs exactly one insertion; and
the insertion overwrites the value of an existing key while leaving every
other key unchanged. -/
theorem c3_metadata_step_laws :
    (∀ (data : List Nat) (size idx : Nat) (p : List (List Nat × List Nat)),
        idx < size → data[idx]? = some 0 →
        parseProductLoop data size idx p = parseProductLoop data size (idx + 1) p) ∧
    (∀ (data : List Nat) (size idx k v : Nat) (p : List (List Nat × List Nat)),
        idx < size → data[idx]? = some (k + 1) → data[idx + 1 + (k + 1)]? = some v →
        parseProductLoop data size idx p =
          parseProductLoop data size (idx + 1 + (k + 1) + 1 + v)
            (setKV p (jsSlice data (idx + 1) (idx + 1 + (k + 1)))
              (jsSlice data (idx + 1 + (k + 1) + 1) (idx + 1 + (k + 1) + 1 + v)))) ∧
    (∀ (p : List (List Nat × List Nat)) (k v : List Nat),
        getKV (setKV p k v) k = some v ∧
        ∀ k2, k2 ≠ k → getKV (setKV p k v) k2 = getKV p k2) := by
  refine ⟨?_, ?_, ?_⟩
  · intro data size idx p hlt hk
    conv_lhs => rw [parseProductLoop]
    rw [dif_pos hlt, hk]
  · intro data size idx k v p hlt hk hv
    conv_lhs => rw [parseProductLoop]
    rw [dif_pos hlt, hk]
    dsimp only
    rw [hv]
  · exact fun p k v => ⟨getKV_setKV_self p k v, fun k2 hne => getKV_setKV_other p k v k2 hne⟩

/-- C3 witness: the step laws and the overwrite law at concrete inputs. -/
theorem c3_metadata_step_laws_witness :
    (parseProductLoop [5, 0] 2 1 [] = parseProductLoop [5, 0] 2 2 []) ∧
    (parseProductLoop [1, 65, 0] 3 0 [] =
      parseProductLoop [1, 65, 0] 3 3
        (setKV [] (jsSlice [1, 65, 0] 1 2) (jsSlice [1, 65, 0] 3 3))) ∧
    getKV (setKV [([1], [2])] [1] [9]) [1] = some [9] :=
  ⟨c3_metadata_step_laws.1 [5, 0] 2 1 [] (by decide) (by decide),
    c3_metadata_step_laws.2.1 [1, 65, 0] 3 0 0 0 [] (by decide) (by decide) (by decide),
    (c3_metadata_step_laws.2.2 [([1], [2])] [1] [9]).1⟩

/-- C4: the mapping decoder returns a product list whose length equals the
unsigned 32-bit count at offset 16, the i-th entry holding the 32 bytes at
offset `56 + 32 * i`, irrespective of the remaining buffer length. -/
theorem c4_mapping_product_list (data : List Nat) (h : 20 ≤ data.length) :
    ∃ r, parseMappingData data = .ok r ∧
      r.productAccountKeys.length = u32 data 16 ∧
      ∀ i, i < u32 data 16 →
        r.productAccountKeys[i]? =
          some ⟨jsSlice data (56 + 32 * i) (56 + 32 * i + 32)⟩ :=
  ⟨_, parseMappingData_eq data h, mappingKeysLoop_length data _ 56,
    fun i hi => mappingKeysLoop_get data _ 56 i hi⟩

/-- C4 witness: a 20-byte mapping buffer declaring two products decodes to a
list of exactly two entries even though no identifier bytes exist. -/
theorem c4_mapping_product_list_witness :
    20 ≤ mapTwoBuf.length ∧
      ∃ r, parseMappingData mapTwoBuf = .ok r ∧
        r.productAccountKeys.length = u32 mapTwoBuf 16 ∧
        ∀ i, i < u32 mapTwoBuf 16 →
          r.productAccountKeys[i]? =
            some ⟨jsSlice mapTwoBuf (56 + 32 * i) (56 + 32 * i + 32)⟩ :=
  ⟨by decide, c4_mapping_product_list mapTwoBuf (by decide)⟩

/-- C5: on a 32-byte input the nullable-identifier codec returns `none`
exactly when every byte is zero, and otherwise returns a key carrying the
input bytes unchanged. -/
theorem c5_nullable_key_codec (b : List Nat) (h : b.length = 32) :
    (PKorNull b = none ↔ ∀ x ∈ b, x = 0) ∧
    (∀ pk, PKorNull b = some pk → pk.bytes = b) := by
  constructor
  · rw [PKorNull_none_iff]
    constructor
    · intro hb x hx
      rw [hb] at hx
      exact (List.eq_of_mem_replicate hx)
    · intro hall
      exact List.eq_replicate_iff.mpr ⟨h, hall⟩
  · intro pk hpk
    rw [(PKorNull_some b pk hpk).2]

/-- C5 witness: a 32-byte span with a single 1 decodes to a present key
carrying exactly those bytes. -/
theorem c5_nullable_key_codec_witness :
    pkNonzeroBuf.length = 32 ∧
      ((PKorNull pkNonzeroBuf = none ↔ ∀ x ∈ pkNonzeroBuf, x = 0) ∧
        (∀ pk, PKorNull pkNonzeroBuf = some pk → pk.bytes = pkNonzeroBuf)) :=
  ⟨by decide, c5_nullable_key_codec pkNonzeroBuf (by decide)⟩

lemma parseProductLoop_past_len (data : List Nat) :
    ∀ n size idx p, size - idx ≤ n → data.length ≤ idx →
      parseProductLoop data size idx p = p := by
  intro n
  induction n with
  | zero =>
      intro size idx p hn hi
      exact parseProductLoop_exit data size idx p (by omega)
  | succ n ih =>
      intro size idx p hn hi
      by_cases hlt : idx < size
      · have hk : data[idx]? = none := List.getElem?_eq_none hi
        conv_lhs => rw [parseProductLoop]
        rw [dif_pos hlt, hk]
        exact ih size (idx + 1) p (by omega) (by omega)
      · exact parseProductLoop_exit data size idx p hlt

lemma parseProductLoop_clamp (data : List Nat) :
    ∀ n size idx p, size - idx ≤ n →
      parseProductLoop data size idx p =
        parseProductLoop data (min size data.length) idx p := by
  intro n
  induction n with
  | zero =>
      intro size idx p hn
      rw [parseProductLoop_exit data size idx p (by omega),
        parseProductLoop_exit data (min size data.length) idx p (by omega)]
  | succ n ih =>
      intro size idx p hn
      by_cases h1 : idx < size
      · by_cases h2 : idx < data.length
        · conv_lhs => rw [parseProductLoop]
          conv_rhs => rw [parseProductLoop]
          rw [dif_pos h1, dif_pos (by omega : idx < min size data.length)]
          cases hk : data[idx]? with
          | none => exact ih size (idx + 1) p (by omega)
          | some v =>
              cases v with
              | zero => exact ih size (idx + 1) p (by omega)
              | succ k =>
                  dsimp only
                  cases hv : data[idx + 1 + (k + 1)]? with
                  | none => rfl
                  | some w => exact ih size _ _ (by omega)
        · rw [parseProductLoop_past_len data (size - idx) size idx p (le_refl _) (by omega),
            parseProductLoop_exit data (min size data.length) idx p (by omega)]
      · rw [parseProductLoop_exit data size idx p h1,
          parseProductLoop_exit data (min size data.length) idx p (by omega)]

/-- C6 counterexample: a 60-byte product buffer with declared used-size 52
whose key-length byte 10 sits at offset 48.  The key bytes span offsets
49–58, so the bytes 65..71 stored at offsets 52–58 — at and beyond the
used-size — are read into the decoded metadata key, refuting the claim that
the loop never reads a key byte, value byte, or length-prefix byte at an
offset at or past the used-size. -/
theorem c6_counterexample :
    parseProductData prodOverrunBuf =
      .ok { magic := 0, version := 0, type := 0, size := 52,
            priceAccountKey := ⟨List.replicate 32 0⟩,
            product := [([0, 0, 0, 65, 66, 67, 68, 69, 70, 71], [])] } ∧
    jsSlice prodOverrunBuf 52 59 = [65, 66, 67, 68, 69, 70, 71] := by
  constructor
  · rw [parseProductData_eq prodOverrunBuf (by decide),
      parseProductLoop_eq_fuel prodOverrunBuf (u32 prodOverrunBuf 12) 12 48 [] (by decide)]
    decide
  · decide

/-- C6 amended: the metadata loop never begins a step — and hence never
reads a key-length prefix byte — at an offset at or past the declared
used-size (it returns immediately there); key bytes, value-length bytes and
value bytes of a step that began below the used-size may however lie past
it, as the counterexample shows. -/
theorem c6_loop_stops_at_size (data : List Nat) (size idx : Nat)
    (p : List (List Nat × List Nat)) (h : size ≤ idx) :
    parseProductLoop data size idx p = p :=
  parseProductLoop_exit data size idx p (by omega)

/-- C6 witness: a step offset at the used-size returns the accumulated
metadata unchanged. -/
theorem c6_loop_stops_at_size_witness :
    (3 : Nat) ≤ 7 ∧ parseProductLoop [9, 9, 9] 3 7 [([4], [5])] = [([4], [5])] :=
  ⟨by decide, c6_loop_stops_at_size [9, 9, 9] 3 7 [([4], [5])] (by decide)⟩

/-- C7 counterexample: a 56-byte mapping buffer declaring one product is too
short to contain the 32-byte product identifier at offsets 56–87, yet the
decoder returns a record (with an empty-byte identifier) instead of aborting
with a bounds error. -/
theorem c7_counterexample :
    parseMappingData mapShortBuf =
      .ok { magic := 0, version := 0, type := 0, size := 0,
            nextMappingAccount := none, productAccountKeys := [⟨[]⟩] } := by
  decide

/-- C7 amended: only the fixed-width integer reads are bounds-checked:
the mapping decode succeeds exactly when the 20 header bytes are present,
regardless of whether the identifier regions fit in the buffer, and a
fixed-width read past the end aborts with a range error naming the offset
and the buffer length. -/
theorem c7_bounds_checks :
    (∀ data : List Nat, (parseMappingData data).isOk = true ↔ 20 ≤ data.length) ∧
    (∀ (data : List Nat) (off : Nat), data.length < off + 4 →
        readUInt32LE data off = .error (.rangeError off data.length)) := by
  constructor
  · intro data
    constructor
    · intro hok
      by_contra hlen
      push_neg at hlen
      simp only [parseMappingData, readUInt32LE] at hok
      split_ifs at hok <;>
        first
          | omega
          | (simp only [exceptOkBind, exceptErrorBind, Except.isOk, Except.toBool] at hok
             exact Bool.noConfusion hok)
    · intro h
      rw [parseMappingData_eq data h]
      rfl
  · intro data off h
    rw [readUInt32LE, if_neg (by omega)]

/-- C7 witness: a 20-byte buffer decodes, and the unsigned 32-bit read on an
empty buffer reports a range error at offset 0. -/
theorem c7_bounds_checks_witness :
    (parseMappingData (List.replicate 20 0)).isOk = true ∧
      readUInt32LE [] 0 = .error (.rangeError 0 0) :=
  ⟨(c7_bounds_checks.1 (List.replicate 20 0)).mpr (by decide),
    c7_bounds_checks.2 [] 0 (by decide)⟩

/-- C8 counterexample: a 20-byte mapping buffer whose magic field is
`0x04030201` (≠ `0xa1b2c3d4`) decodes to a record whose magic is simply the
wrong value — no `BadMagic`/`UnsupportedVersion` abort exists in the code. -/
theorem c8_counterexample :
    parseMappingData mapBadMagicBuf =
      .ok { magic := 67305985, version := 0, type := 0, size := 0,
            nextMappingAccount := some ⟨[]⟩, productAccountKeys := [] } ∧
    (67305985 : Nat) ≠ Magic := by
  constructor
  · decide
  · decide

/-- C8 amended: the decoders read the header magic and version into the
returned record but never compare them with the format constants: whenever
the 20 header bytes are present the mapping decode succeeds, whatever the
magic and version bytes hold. -/
theorem c8_no_magic_version_check (data : List Nat) (h : 20 ≤ data.length) :
    ∃ r, parseMappingData data = .ok r ∧
      r.magic = u32 data 0 ∧ r.version = u32 data 4 :=
  ⟨_, parseMappingData_eq data h, rfl, rfl⟩

/-- C8 witness: the bad-magic buffer decodes successfully with its raw
magic and version fields. -/
theorem c8_no_magic_version_check_witness :
    20 ≤ mapBadMagicBuf.length ∧
      ∃ r, parseMappingData mapBadMagicBuf = .ok r ∧
        r.magic = u32 mapBadMagicBuf 0 ∧ r.version = u32 mapBadMagicBuf 4 :=
  ⟨by decide, c8_no_magic_version_check mapBadMagicBuf (by decide)⟩

/-- C9 counterexample: a block with status ordinal 7 — outside the 4-entry
status table — decodes to the bare ordinal 7: the field is not mapped to the
`Unknown` variant (ordinal 0) and has no entry in the exported table, so no
explicit out-of-range representation is produced. -/
theorem c9_counterexample :
    (parsePriceInfo infoStatus7Buf 0).toOption.map Price.status = some 7 ∧
      PriceStatus[7]? = none ∧ (7 : Nat) ≠ 0 ∧ PriceStatus[0]? = some "Unknown" := by
  refine ⟨?_, by decide, by decide, by rfl⟩
  rw [parsePriceInfo_ok infoStatus7Buf 0 (by decide)]
  decide

/-- C9 amended: the decoder passes status and corporate-action ordinals
through verbatim — for any block the decode is total in these fields and
returns the raw unsigned 32-bit ordinals, with no unknown-marker
substitution and no failure. -/
theorem c9_ordinals_verbatim (data : List Nat) (e : Int) (h : 32 ≤ data.length) :
    ∃ p, parsePriceInfo data e = .ok p ∧
      p.status = u32 data 16 ∧ p.corporateAction = u32 data 20 := by
  refine ⟨priceInfoVal data e, parsePriceInfo_ok data e h, ?_, ?_⟩ <;>
    dsimp only [priceInfoVal]

/-- C9 witness: the status-7 block decodes with status ordinal exactly 7. -/
theorem c9_ordinals_verbatim_witness :
    32 ≤ infoStatus7Buf.length ∧
      ∃ p, parsePriceInfo infoStatus7Buf 0 = .ok p ∧
        p.status = u32 infoStatus7Buf 16 ∧ p.corporateAction = u32 infoStatus7Buf 20 :=
  ⟨by decide, c9_ordinals_verbatim infoStatus7Buf 0 (by decide)⟩

/-- C10: with the declared used-size exceeding the physical length, the
product decoder still terminates with a record and no error; a key-length
read beyond the buffer end acts as a zero-length key (one offset step, no
entry); and the resulting metadata is exactly what the in-bounds bytes
yield, i.e. what decoding with the used-size clamped to the buffer length
yields. -/
theorem c10_oversize_metadata_total :
    (∀ data : List Nat, 16 ≤ data.length → ∃ r, parseProductData data = .ok r) ∧
    (∀ (data : List Nat) (size idx : Nat) (p : List (List Nat × List Nat)),
        data.length ≤ idx → idx < size →
        parseProductLoop data size idx p = parseProductLoop data size (idx + 1) p) ∧
    (∀ (data : List Nat) (size idx : Nat) (p : List (List Nat × List Nat)),
        parseProductLoop data size idx p =
          parseProductLoop data (min size data.length) idx p) := by
  refine ⟨?_, ?_, ?_⟩
  · intro data h
    exact ⟨_, parseProductData_eq data h⟩
  · intro data size idx p hlen hlt
    conv_lhs => rw [parseProductLoop]
    rw [dif_pos hlt, List.getElem?_eq_none hlen]
  · intro data size idx p
    exact parseProductLoop_clamp data (size - idx) size idx p (le_refl _)

/-- C10 witness: a 16-byte product buffer with declared used-size 200
decodes without error, and an out-of-bounds key-length step is a no-op
step. -/
theorem c10_oversize_metadata_total_witness :
    (∃ r, parseProductData prodOversizeBuf = .ok r) ∧
      parseProductLoop [] 3 1 [] = parseProductLoop [] 3 2 [] :=
  ⟨c10_oversize_metadata_total.1 prodOversizeBuf (by decide),
    c10_oversize_metadata_total.2.1 [] 3 1 [] (by decide) (by decide)⟩

end Pyth
